import Mathlib

/-!
Shallow embedding of `src/validators/ip_address.py` (functions `ipv4` and
`ipv6`) together with the parts of the external address-parsing facility
(CPython `ipaddress` module, the library the source imports:
`IPv4Address`, `IPv4Network`, `IPv6Address`, `IPv6Network`) that those two
functions exercise.  Strings are modelled by `String` at the boundary and
by `List Char` internally; Python `int` is modelled by `Nat` (all values
involved are non-negative); a raised exception is modelled by
`Except.error` carrying the exception class.
-/

/-- The three exception classes that can be raised by the parsing facility
and are caught by the validators (`AddressValueError` and
`NetmaskValueError` are subclasses of `ValueError`; the source catches all
three explicitly). -/
inductive PyExc where
  | valueError
  | addressValueError
  | netmaskValueError
deriving DecidableEq, Repr

/-- Result of one of the (undecorated) validator functions: either the
parsed object (a truthy value, passed through unchanged) or the boolean
`False`. -/
inductive VRes (α : Type) where
  | ok (v : α)
  | fail
deriving DecidableEq, Repr

/-- Python `str.split(sep)` for a single-character separator, on the
character list of the string.  `"".split(sep) == ['']`. -/
def splitOnC (sep : Char) : List Char → List (List Char)
  | [] => [[]]
  | c :: cs =>
    if c = sep then [] :: splitOnC sep cs
    else
      match splitOnC sep cs with
      | [] => [[c]]
      | p :: ps => (c :: p) :: ps

/-- Python `str.partition(sep)` for a single-character separator: the part
before the first occurrence, and (when the separator occurs) the part
after it. -/
def partitionChar (sep : Char) : List Char → List Char × Option (List Char)
  | [] => ([], none)
  | c :: cs =>
    if c = sep then ([], some cs)
    else
      let r := partitionChar sep cs
      (c :: r.1, r.2)

/-- Effectful map over a list in the `Except` monad, stopping at the first
error (Python: a `for` loop whose body may raise). -/
def exMapM (f : α → Except PyExc β) : List α → Except PyExc (List β)
  | [] => .ok []
  | x :: xs =>
    match f x with
    | .error e => .error e
    | .ok y =>
      match exMapM f xs with
      | .error e => .error e
      | .ok ys => .ok (y :: ys)

/-- Python `int(s, 10)` on an all-decimal-digit string. -/
def decimalVal (s : List Char) : Nat :=
  s.foldl (fun a c => 10 * a + (c.toNat - 48)) 0

/-- Value of one hexadecimal digit (`0-9`, `a-f`, `A-F`). -/
def hexDigitVal (c : Char) : Nat :=
  if c.isDigit then c.toNat - 48
  else if 97 ≤ c.toNat then c.toNat - 87
  else c.toNat - 55

/-- Python `int(s, 16)` on an all-hex-digit string. -/
def hexVal (s : List Char) : Nat :=
  s.foldl (fun a c => 16 * a + hexDigitVal c) 0

/-- Membership in CPython `_HEX_DIGITS = frozenset('0123456789ABCDEFabcdef')`. -/
def isHexDigitPy (c : Char) : Bool :=
  c.isDigit || (97 ≤ c.toNat && c.toNat ≤ 102) || (65 ≤ c.toNat && c.toNat ≤ 70)

/-- CPython `_BaseV4._parse_octet`: a decimal octet string must be
non-empty, all ASCII decimal digits, at most 3 characters, without leading
zeros (security bug bpo-36384), and at most 255.  Raises `ValueError`
otherwise. -/
def parseOctet (s : List Char) : Except PyExc Nat :=
  if s = [] then .error .valueError
  else if ¬ s.all Char.isDigit then .error .valueError
  else if 3 < s.length then .error .valueError
  else if s ≠ ['0'] ∧ s.headD ' ' = '0' then .error .valueError
  else if 255 < decimalVal s then .error .valueError
  else .ok (decimalVal s)

/-- CPython `_BaseV4._ip_int_from_string`: split on `'.'`, expect exactly
4 octets, parse each octet and combine big-endian.  A `ValueError` from
`_parse_octet` is re-raised as `AddressValueError`. -/
def ipv4IntFromString (s : List Char) : Except PyExc Nat :=
  if s = [] then .error .addressValueError
  else
    let octets := splitOnC '.' s
    if octets.length ≠ 4 then .error .addressValueError
    else
      match exMapM parseOctet octets with
      | .error _ => .error .addressValueError
      | .ok vals => .ok (vals.foldl (fun a v => a * 256 + v) 0)

/-- CPython `IPv4Address` (its `_ip` field). -/
structure IPv4Address where
  ip : Nat
deriving DecidableEq, Repr

/-- CPython `IPv4Address.__init__` on a string argument: reject `'/'`,
then `_ip_int_from_string`. -/
def mkIPv4Address (s : List Char) : Except PyExc IPv4Address :=
  if '/' ∈ s then .error .addressValueError
  else
    match ipv4IntFromString s with
    | .error e => .error e
    | .ok n => .ok ⟨n⟩

/-- CPython `_IPAddressBase._ip_int_from_prefix`:
`ALL_ONES ^ (ALL_ONES >> prefixlen)` where `ALL_ONES = 2^maxPrefixlen - 1`. -/
def ipIntFromMaskLen (prefixlen maxPrefixlen : Nat) : Nat :=
  (2 ^ maxPrefixlen - 1) ^^^ ((2 ^ maxPrefixlen - 1) >>> prefixlen)

/-- `_count_righthand_zero_bits(number, bits)` for positive `number`
(the `min(bits, ...)` is realised by the fuel `bits`). -/
def ctzAux : Nat → Nat → Nat
  | 0, _ => 0
  | fuel + 1, n => if n % 2 = 1 then 0 else 1 + ctzAux fuel (n / 2)

/-- CPython `_count_righthand_zero_bits`: number of zero bits on the right
hand side of `number`, capped at `bits`. -/
def countRighthandZeroBits (number bits : Nat) : Nat :=
  if number = 0 then bits else min bits (ctzAux bits number)

/-- CPython `_IPAddressBase._prefix_from_ip_int`: recover a prefix length
from an expanded bitwise netmask; `ValueError` if the mask mixes zeroes
and ones. -/
def maskLenFromIpInt (ipInt maxPrefixlen : Nat) : Except PyExc Nat :=
  let trailingZeroes := countRighthandZeroBits ipInt maxPrefixlen
  let prefixlen := maxPrefixlen - trailingZeroes
  if ipInt >>> trailingZeroes ≠ 2 ^ prefixlen - 1 then .error .valueError
  else .ok prefixlen

/-- CPython `_IPAddressBase._prefix_from_prefix_string`: a prefix length
in numeric-string form must be non-empty, all ASCII decimal digits, and at
most `maxPrefixlen`; `NetmaskValueError` otherwise (via
`_report_invalid_netmask`). -/
def maskLenFromString (s : List Char) (maxPrefixlen : Nat) : Except PyExc Nat :=
  if s = [] ∨ ¬ s.all Char.isDigit then .error .netmaskValueError
  else if ¬ decimalVal s ≤ maxPrefixlen then .error .netmaskValueError
  else .ok (decimalVal s)

/-- CPython `_BaseV4._prefix_from_ip_string`: parse a dotted-quad netmask
or hostmask; every failure is reported as `NetmaskValueError`. -/
def v4MaskLenFromIpString (s : List Char) : Except PyExc Nat :=
  match ipv4IntFromString s with
  | .error _ => .error .netmaskValueError
  | .ok ipInt =>
    match maskLenFromIpInt ipInt 32 with
    | .ok p => .ok p
    | .error _ =>
      match maskLenFromIpInt (ipInt ^^^ (2 ^ 32 - 1)) 32 with
      | .ok p => .ok p
      | .error _ => .error .netmaskValueError

/-- CPython `IPv4Network._make_netmask` on a string argument: try prefix
length form first, and on `NetmaskValueError` (the only error the attempt
can raise) fall back to dotted-quad netmask/hostmask form.  Returns the
pair (netmask as integer, prefix length). -/
def v4MakeNetmask (arg : List Char) : Except PyExc (Nat × Nat) :=
  match maskLenFromString arg 32 with
  | .ok p => .ok (ipIntFromMaskLen p 32, p)
  | .error _ =>
    match v4MaskLenFromIpString arg with
    | .ok p => .ok (ipIntFromMaskLen p 32, p)
    | .error e => .error e

/-- CPython `_split_optional_netmask` composed with
`_split_addr_prefix` on a string argument: split on `'/'`; more than one
`'/'` raises `AddressValueError`; with no `'/'` the mask argument is the
maximum prefix length (returned here as `none`). -/
def splitAddrMask (s : List Char) : Except PyExc (List Char × Option (List Char)) :=
  match splitOnC '/' s with
  | [a] => .ok (a, none)
  | [a, m] => .ok (a, some m)
  | _ => .error .addressValueError

/-- CPython `IPv4Network` (fields `network_address`, `netmask`,
`_prefixlen`, with the two address fields as integers). -/
structure IPv4Network where
  networkAddress : Nat
  netmask : Nat
  prefixlen : Nat
deriving DecidableEq, Repr

/-- The part of CPython `IPv4Network.__init__` before the host-bits
check: split address and mask, `IPv4Address(addr)`, `_make_netmask(mask)`
(with the no-mask case taking the integer branch, prefix length 32).
Returns (packed address, netmask, prefix length). -/
def v4Pieces (s : List Char) : Except PyExc (Nat × Nat × Nat) :=
  match splitAddrMask s with
  | .error e => .error e
  | .ok (addrStr, maskArg) =>
    match mkIPv4Address addrStr with
    | .error e => .error e
    | .ok a =>
      match (match maskArg with
             | none => (.ok (ipIntFromMaskLen 32 32, 32) : Except PyExc (Nat × Nat))
             | some m => v4MakeNetmask m) with
      | .error e => .error e
      | .ok (netmask, prefixlen) => .ok (a.ip, netmask, prefixlen)

/-- CPython `IPv4Network.__init__` on a string: after the pieces are
parsed, reject host bits set when `strict` is true, otherwise mask them
away. -/
def mkIPv4Network (s : List Char) (strict : Bool) : Except PyExc IPv4Network :=
  match v4Pieces s with
  | .error e => .error e
  | .ok (packed, netmask, prefixlen) =>
    if packed &&& netmask ≠ packed then
      if strict then .error .valueError
      else .ok ⟨packed &&& netmask, netmask, prefixlen⟩
    else .ok ⟨packed, netmask, prefixlen⟩

/-- CPython `_BaseV6._parse_hextet`: all characters from `_HEX_DIGITS`,
at most 4 characters; the empty string passes both checks but
`int('', 16)` raises `ValueError`. -/
def parseHextet (s : List Char) : Except PyExc Nat :=
  if ¬ s.all isHexDigitPy then .error .valueError
  else if 4 < s.length then .error .valueError
  else if s = [] then .error .valueError
  else .ok (hexVal s)

/-- The two hextet-accumulation loops of `_BaseV6._ip_int_from_string`:
`ip_int <<= 16; ip_int |= hextet` for each parsed hextet. -/
def v6Accumulate (vals : List Nat) (init : Nat) : Nat :=
  vals.foldl (fun a v => (a <<< 16) ||| v) init

/-- The final `try` block of `_BaseV6._ip_int_from_string`: parse
`parts_hi` leading hextets, shift over `parts_skipped` zero hextets, parse
`parts_lo` trailing hextets; a `ValueError` from `_parse_hextet` is
re-raised as `AddressValueError`. -/
def v6Assemble (parts : List (List Char)) (partsHi partsLo partsSkipped : Nat) :
    Except PyExc Nat :=
  match exMapM parseHextet (parts.take partsHi) with
  | .error _ => .error .addressValueError
  | .ok hiVals =>
    match exMapM parseHextet (parts.drop (parts.length - partsLo)) with
    | .error _ => .error .addressValueError
    | .ok loVals =>
      .ok (v6Accumulate loVals ((v6Accumulate hiVals 0) <<< (16 * partsSkipped)))

/-- CPython `_BaseV6._ip_int_from_string`: split on `':'` (at least 3
parts), replace an IPv4-style last part by its two hextets (formatted with
`'%x'` and re-parsed), at most 9 parts, locate at most one `'::'` among
the interior parts, resolve the `parts_hi`/`parts_lo`/`parts_skipped`
bookkeeping exactly as the source does, then assemble the 128-bit
integer. -/
def ipv6IntFromString (s : List Char) : Except PyExc Nat :=
  if s = [] then .error .addressValueError
  else
    let parts0 := splitOnC ':' s
    if parts0.length < 3 then .error .addressValueError
    else
      match (if '.' ∈ parts0.getLastD [] then
               match mkIPv4Address (parts0.getLastD []) with
               | .error _ => .error PyExc.addressValueError
               | .ok a =>
                 .ok (parts0.dropLast ++
                      [Nat.toDigits 16 ((a.ip >>> 16) &&& 65535),
                       Nat.toDigits 16 (a.ip &&& 65535)])
             else .ok parts0 : Except PyExc (List (List Char))) with
      | .error e => .error e
      | .ok parts =>
        if 9 < parts.length then .error .addressValueError
        else
          let middles := (parts.drop 1).dropLast
          if 2 ≤ middles.countP List.isEmpty then .error .addressValueError
          else
            match middles.findIdx? List.isEmpty with
            | some i =>
              let skipIndex := i + 1
              let headEmpty := (parts.headD []).isEmpty
              let lastEmpty := (parts.getLastD []).isEmpty
              let partsLo0 := parts.length - skipIndex - 1
              if headEmpty ∧ skipIndex - 1 ≠ 0 then .error .addressValueError
              else if lastEmpty ∧ partsLo0 - 1 ≠ 0 then .error .addressValueError
              else
                let partsHi := if headEmpty then skipIndex - 1 else skipIndex
                let partsLo := if lastEmpty then partsLo0 - 1 else partsLo0
                if 8 - (partsHi + partsLo) < 1 then .error .addressValueError
                else v6Assemble parts partsHi partsLo (8 - (partsHi + partsLo))
            | none =>
              if parts.length ≠ 8 then .error .addressValueError
              else if (parts.headD []).isEmpty then .error .addressValueError
              else if (parts.getLastD []).isEmpty then .error .addressValueError
              else v6Assemble parts 8 0 0

/-- CPython `_BaseV6._split_scope_id`: partition on `'%'`; when a `'%'`
occurs, the scope id must be non-empty and must not itself contain
`'%'`. -/
def splitScopeId (s : List Char) : Except PyExc (List Char × Option (List Char)) :=
  match partitionChar '%' s with
  | (addr, none) => .ok (addr, none)
  | (addr, some scope) =>
    if scope = [] ∨ '%' ∈ scope then .error .addressValueError
    else .ok (addr, some scope)

/-- CPython `IPv6Address` (fields `_ip` and `_scope_id`). -/
structure IPv6Address where
  ip : Nat
  scopeId : Option (List Char)
deriving DecidableEq, Repr

/-- CPython `IPv6Address.__init__` on a string argument: reject `'/'`,
split off the scope id, then `_ip_int_from_string`. -/
def mkIPv6Address (s : List Char) : Except PyExc IPv6Address :=
  if '/' ∈ s then .error .addressValueError
  else
    match splitScopeId s with
    | .error e => .error e
    | .ok (addrStr, scope) =>
      match ipv6IntFromString addrStr with
      | .error e => .error e
      | .ok n => .ok ⟨n, scope⟩

/-- CPython `IPv6Network` (fields `network_address`, `netmask`,
`_prefixlen`, the netmask as an integer). -/
structure IPv6Network where
  networkAddress : IPv6Address
  netmask : Nat
  prefixlen : Nat
deriving DecidableEq, Repr

/-- The part of CPython `IPv6Network.__init__` before the host-bits
check: split address and mask, `IPv6Address(addr)`, `_make_netmask(mask)`
(for IPv6 only the prefix-length string form exists; the no-mask case
takes the integer branch, prefix length 128). -/
def v6Pieces (s : List Char) : Except PyExc (IPv6Address × Nat × Nat) :=
  match splitAddrMask s with
  | .error e => .error e
  | .ok (addrStr, maskArg) =>
    match mkIPv6Address addrStr with
    | .error e => .error e
    | .ok a =>
      match (match maskArg with
             | none => (.ok (ipIntFromMaskLen 128 128, 128) : Except PyExc (Nat × Nat))
             | some m =>
               match maskLenFromString m 128 with
               | .ok p => .ok (ipIntFromMaskLen p 128, p)
               | .error e => .error e) with
      | .error e => .error e
      | .ok (netmask, prefixlen) => .ok (a, netmask, prefixlen)

/-- CPython `IPv6Network.__init__` on a string: after the pieces are
parsed, reject host bits set when `strict` is true, otherwise mask them
away (rebuilding the network address from the masked integer, which
clears the scope id). -/
def mkIPv6Network (s : List Char) (strict : Bool) : Except PyExc IPv6Network :=
  match v6Pieces s with
  | .error e => .error e
  | .ok (a, netmask, prefixlen) =>
    if a.ip &&& netmask ≠ a.ip then
      if strict then .error .valueError
      else .ok ⟨⟨a.ip &&& netmask, none⟩, netmask, prefixlen⟩
    else .ok ⟨a, netmask, prefixlen⟩

/-- The object returned by a successful run of the `ipv4` validator body:
an `IPv4Network` when `cidr` is true, an `IPv4Address` otherwise. -/
inductive V4Obj where
  | net (n : IPv4Network)
  | addr (a : IPv4Address)
deriving DecidableEq, Repr

/-- The object returned by a successful run of the `ipv6` validator body. -/
inductive V6Obj where
  | net (n : IPv6Network)
  | addr (a : IPv6Address)
deriving DecidableEq, Repr

/-- The `try` block of `ipv4` in `src/validators/ip_address.py`: in CIDR
mode, `strict` demands exactly one `'/'` (else `ValueError`), then
`IPv4Network(value, strict=not host_bit)`; otherwise
`IPv4Address(value)`. -/
def ipv4Body (value : List Char) (cidr strict host_bit : Bool) : Except PyExc V4Obj :=
  if cidr then
    if strict ∧ value.count '/' ≠ 1 then .error .valueError
    else
      match mkIPv4Network value (!host_bit) with
      | .error e => .error e
      | .ok n => .ok (.net n)
  else
    match mkIPv4Address value with
    | .error e => .error e
    | .ok a => .ok (.addr a)

/-- `ipv4` from `src/validators/ip_address.py` (the undecorated
predicate): empty value returns `False` immediately; any
`ValueError`/`AddressValueError`/`NetmaskValueError` raised by the body is
caught and converted to `False`; a successful parse returns the parsed
object. -/
def ipv4 (value : String) (cidr strict host_bit : Bool) : VRes V4Obj :=
  if value.data = [] then .fail
  else
    match ipv4Body value.data cidr strict host_bit with
    | .ok v => .ok v
    | .error _ => .fail

/-- The `try` block of `ipv6` in `src/validators/ip_address.py`. -/
def ipv6Body (value : List Char) (cidr strict host_bit : Bool) : Except PyExc V6Obj :=
  if cidr then
    if strict ∧ value.count '/' ≠ 1 then .error .valueError
    else
      match mkIPv6Network value (!host_bit) with
      | .error e => .error e
      | .ok n => .ok (.net n)
  else
    match mkIPv6Address value with
    | .error e => .error e
    | .ok a => .ok (.addr a)

/-- `ipv6` from `src/validators/ip_address.py` (the undecorated
predicate). -/
def ipv6 (value : String) (cidr strict host_bit : Bool) : VRes V6Obj :=
  if value.data = [] then .fail
  else
    match ipv6Body value.data cidr strict host_bit with
    | .ok v => .ok v
    | .error _ => .fail

/-- C1: for every string value and every combination of the `cidr`,
`strict` and `host_bit` flags, `ipv4` and `ipv6` return a value (a
successful parse result or the failure value `False`) and never let an
exception escape: every error raised during parsing, including the
internal strict-mode error, is caught and converted to the boolean
failure `False`. -/
theorem ipv4_ipv6_never_raise :
    ∀ (value : String) (c s h : Bool),
      ((ipv4 value c s h = VRes.fail ∨ ∃ v, ipv4 value c s h = VRes.ok v) ∧
       (∀ e, ipv4Body value.data c s h = Except.error e → ipv4 value c s h = VRes.fail)) ∧
      ((ipv6 value c s h = VRes.fail ∨ ∃ w, ipv6 value c s h = VRes.ok w) ∧
       (∀ e, ipv6Body value.data c s h = Except.error e → ipv6 value c s h = VRes.fail)) := by
  intro value c s h
  refine ⟨⟨?_, ?_⟩, ?_, ?_⟩
  · cases hr : ipv4 value c s h with
    | ok v => exact Or.inr ⟨v, rfl⟩
    | fail => exact Or.inl rfl
  · intro e he
    unfold ipv4
    by_cases hv : value.data = []
    · simp [hv]
    · simp [hv, he]
  · cases hr : ipv6 value c s h with
    | ok w => exact Or.inr ⟨w, rfl⟩
    | fail => exact Or.inl rfl
  · intro e he
    unfold ipv6
    by_cases hv : value.data = []
    · simp [hv]
    · simp [hv, he]

/-- Witness for C1 at a concrete input: on `"900.80.70.11"` the body
raises `AddressValueError` (octet out of range) and the validator
converts it to `False`. -/
theorem ipv4_ipv6_never_raise_witness :
    ipv4 "900.80.70.11" true false true = VRes.fail :=
  ((ipv4_ipv6_never_raise "900.80.70.11" true false true).1.2
    PyExc.addressValueError (by rfl))

/-- C5: the empty string fails in both validators for every combination of
flags (the guard `if not value` fires before the `try` block). -/
theorem empty_value_fails :
    ∀ c s h : Bool, ipv4 "" c s h = VRes.fail ∧ ipv6 "" c s h = VRes.fail := by
  intro c s h
  exact ⟨rfl, rfl⟩

/-- C8: with `cidr = false` the `strict` and `host_bit` flags have no
effect on the verdict of either validator. -/
theorem strict_host_bit_irrelevant_without_cidr :
    ∀ (value : String) (s1 h1 s2 h2 : Bool),
      ipv4 value false s1 h1 = ipv4 value false s2 h2 ∧
      ipv6 value false s1 h1 = ipv6 value false s2 h2 := by
  intro value s1 h1 s2 h2
  exact ⟨rfl, rfl⟩

/-- C9: both validators are pure functions of their four arguments: two
calls with identical arguments yield identical outcomes (the embedding
reads and mutates no state, so the verdict is a function of the
arguments alone). -/
theorem validators_deterministic :
    ∀ (value : String) (c s h : Bool),
      ipv4 value c s h = ipv4 value c s h ∧ ipv6 value c s h = ipv6 value c s h :=
  fun _ _ _ _ => ⟨rfl, rfl⟩

/-- C2: with `cidr = true` and `strict = true`, a non-empty value whose
number of `'/'` characters is not exactly one fails with the strict-mode
`ValueError` before any parse is attempted, and a value with exactly one
`'/'` proceeds to the network parse; concretely
`ipv4("1.1.1.1/8", strict=true)` succeeds while `ipv4("1.1.1.1",
strict=true)` and `ipv4("1.1.1.1/8/8", strict=true)` fail. -/
theorem strict_requires_exactly_one_slash :
    (∀ (value : String) (h : Bool), value.data ≠ [] →
       (value.data.count '/' ≠ 1 →
          ipv4 value true true h = VRes.fail ∧
          ipv4Body value.data true true h = Except.error PyExc.valueError ∧
          ipv6 value true true h = VRes.fail ∧
          ipv6Body value.data true true h = Except.error PyExc.valueError) ∧
       (value.data.count '/' = 1 →
          (∀ n, mkIPv4Network value.data (!h) = Except.ok n →
             ipv4 value true true h = VRes.ok (V4Obj.net n)) ∧
          (∀ e, mkIPv4Network value.data (!h) = Except.error e →
             ipv4 value true true h = VRes.fail) ∧
          (∀ n, mkIPv6Network value.data (!h) = Except.ok n →
             ipv6 value true true h = VRes.ok (V6Obj.net n)) ∧
          (∀ e, mkIPv6Network value.data (!h) = Except.error e →
             ipv6 value true true h = VRes.fail))) ∧
    ipv4 "1.1.1.1/8" true true true =
      VRes.ok (V4Obj.net ⟨16777216, 4278190080, 8⟩) ∧
    ipv4 "1.1.1.1" true true true = VRes.fail ∧
    ipv4 "1.1.1.1/8/8" true true true = VRes.fail := by
  refine ⟨?_, by rfl, by rfl, by rfl⟩
  intro value h hne
  constructor
  · intro hcnt
    refine ⟨?_, ?_, ?_, ?_⟩
    · simp [ipv4, hne, ipv4Body, hcnt]
    · simp [ipv4Body, hcnt]
    · simp [ipv6, hne, ipv6Body, hcnt]
    · simp [ipv6Body, hcnt]
  · intro hcnt
    refine ⟨?_, ?_, ?_, ?_⟩
    · intro n hn; simp [ipv4, hne, ipv4Body, hcnt, hn]
    · intro e he; simp [ipv4, hne, ipv4Body, hcnt, he]
    · intro n hn; simp [ipv6, hne, ipv6Body, hcnt, hn]
    · intro e he; simp [ipv6, hne, ipv6Body, hcnt, he]

/-- Witness for C2 at a concrete input: `"1.2.3.4"` is non-empty and has
zero `'/'` characters, so the strict CIDR requirement rejects it. -/
theorem strict_requires_exactly_one_slash_witness :
    ipv4 "1.2.3.4" true true true = VRes.fail :=
  (((strict_requires_exactly_one_slash.1 "1.2.3.4" true (by decide)).1
      (by decide)).1)

/-- C4: with `cidr = false` the value is parsed as a bare address, so any
value containing a `'/'` fails; concretely `ipv4("1.1.1.1/8",
cidr=false)` fails while the same value with the default `cidr=true`
succeeds. -/
theorem bare_address_rejects_slash :
    (∀ (value : String) (s h : Bool), '/' ∈ value.data →
        ipv4 value false s h = VRes.fail ∧ ipv6 value false s h = VRes.fail) ∧
    ipv4 "1.1.1.1/8" false false true = VRes.fail ∧
    ipv4 "1.1.1.1/8" true false true =
      VRes.ok (V4Obj.net ⟨16777216, 4278190080, 8⟩) := by
  refine ⟨?_, by rfl, by rfl⟩
  intro value s h hmem
  by_cases hv : value.data = []
  · constructor <;> simp [ipv4, ipv6, hv]
  · constructor
    · simp [ipv4, hv, ipv4Body, mkIPv4Address, hmem]
    · simp [ipv6, hv, ipv6Body, mkIPv6Address, hmem]

/-- Witness for C4 at a concrete input. -/
theorem bare_address_rejects_slash_witness :
    ipv4 "9.9.9.9/8" false true true = VRes.fail :=
  (bare_address_rejects_slash.1 "9.9.9.9/8" true true (by decide)).1

/-- C7: a successful call returns the parsed network/address object
produced by the body (never the literal boolean `True`); concretely
`ipv4("123.0.0.7")` returns the parsed `/32` network object and
`ipv4("900.80.70.11")` fails because an octet is out of range. -/
theorem success_returns_parsed_object :
    (∀ (value : String) (c s h : Bool) (v : V4Obj),
        ipv4 value c s h = VRes.ok v → ipv4Body value.data c s h = Except.ok v) ∧
    (∀ (value : String) (c s h : Bool) (w : V6Obj),
        ipv6 value c s h = VRes.ok w → ipv6Body value.data c s h = Except.ok w) ∧
    ipv4 "123.0.0.7" true false true =
      VRes.ok (V4Obj.net ⟨2063597575, 4294967295, 32⟩) ∧
    ipv4 "900.80.70.11" true false true = VRes.fail := by
  refine ⟨?_, ?_, by rfl, by rfl⟩
  · intro value c s h v hv
    unfold ipv4 at hv
    by_cases he : value.data = []
    · simp [he] at hv
    · rw [if_neg he] at hv
      cases hb : ipv4Body value.data c s h with
      | ok v' => rw [hb] at hv; simp at hv; rw [hv]
      | error e => rw [hb] at hv; simp at hv
  · intro value c s h w hw
    unfold ipv6 at hw
    by_cases he : value.data = []
    · simp [he] at hw
    · rw [if_neg he] at hw
      cases hb : ipv6Body value.data c s h with
      | ok w' => rw [hb] at hw; simp at hw; rw [hw]
      | error e => rw [hb] at hw; simp at hw

/-- Witness for C7 at a concrete input. -/
theorem success_returns_parsed_object_witness :
    ipv4Body "123.0.0.7".data true false true =
      Except.ok (V4Obj.net ⟨2063597575, 4294967295, 32⟩) :=
  success_returns_parsed_object.1 "123.0.0.7" true false true
    (V4Obj.net ⟨2063597575, 4294967295, 32⟩) (by rfl)

/-- A validator call succeeds with object `v` exactly when the value is
non-empty and the `try` block returns `v`. -/
theorem ipv4_ok_iff {value : String} {c s h : Bool} {v : V4Obj} :
    ipv4 value c s h = VRes.ok v ↔
      value.data ≠ [] ∧ ipv4Body value.data c s h = Except.ok v := by
  unfold ipv4
  by_cases he : value.data = []
  · simp [he]
  · rw [if_neg he]
    cases hb : ipv4Body value.data c s h <;> simp [he]

/-- `ipv6` analogue of `ipv4_ok_iff`. -/
theorem ipv6_ok_iff {value : String} {c s h : Bool} {w : V6Obj} :
    ipv6 value c s h = VRes.ok w ↔
      value.data ≠ [] ∧ ipv6Body value.data c s h = Except.ok w := by
  unfold ipv6
  by_cases he : value.data = []
  · simp [he]
  · rw [if_neg he]
    cases hb : ipv6Body value.data c s h <;> simp [he]

/-- Evaluation of `mkIPv4Network` once its pieces are known: only the
host-bits check remains. -/
theorem mkIPv4Network_eq_of_pieces {s : List Char} {a m p : Nat} (strict : Bool)
    (hp : v4Pieces s = Except.ok (a, m, p)) :
    mkIPv4Network s strict =
      if a &&& m ≠ a then
        (if strict then Except.error PyExc.valueError
         else Except.ok ⟨a &&& m, m, p⟩)
      else Except.ok ⟨a, m, p⟩ := by
  unfold mkIPv4Network
  rw [hp]

/-- Evaluation of `mkIPv4Network` when its pieces fail. -/
theorem mkIPv4Network_eq_of_pieces_err {s : List Char} {e : PyExc} (strict : Bool)
    (hp : v4Pieces s = Except.error e) :
    mkIPv4Network s strict = Except.error e := by
  unfold mkIPv4Network
  rw [hp]

/-- Evaluation of `mkIPv6Network` once its pieces are known. -/
theorem mkIPv6Network_eq_of_pieces {s : List Char} {a : IPv6Address} {m p : Nat}
    (strict : Bool) (hp : v6Pieces s = Except.ok (a, m, p)) :
    mkIPv6Network s strict =
      if a.ip &&& m ≠ a.ip then
        (if strict then Except.error PyExc.valueError
         else Except.ok ⟨⟨a.ip &&& m, none⟩, m, p⟩)
      else Except.ok ⟨a, m, p⟩ := by
  unfold mkIPv6Network
  rw [hp]

/-- Evaluation of `mkIPv6Network` when its pieces fail. -/
theorem mkIPv6Network_eq_of_pieces_err {s : List Char} {e : PyExc} (strict : Bool)
    (hp : v6Pieces s = Except.error e) :
    mkIPv6Network s strict = Except.error e := by
  unfold mkIPv6Network
  rw [hp]

/-- A strict network parse that succeeds also succeeds (with the same
object) in lenient mode: strict success means no host bits were set, and
then both modes return the same network. -/
theorem mkIPv4Network_strict_mono {s : List Char} {n : IPv4Network}
    (h : mkIPv4Network s true = Except.ok n) :
    mkIPv4Network s false = Except.ok n := by
  cases hp : v4Pieces s with
  | error e => rw [mkIPv4Network_eq_of_pieces_err true hp] at h; simp at h
  | ok t =>
    obtain ⟨a, m, p⟩ := t
    rw [mkIPv4Network_eq_of_pieces true hp] at h
    rw [mkIPv4Network_eq_of_pieces false hp]
    by_cases hb : a &&& m ≠ a
    · rw [if_pos hb] at h; simp at h
    · rw [if_neg hb] at h
      rw [if_neg hb]
      exact h

/-- `ipv6` analogue of `mkIPv4Network_strict_mono`. -/
theorem mkIPv6Network_strict_mono {s : List Char} {n : IPv6Network}
    (h : mkIPv6Network s true = Except.ok n) :
    mkIPv6Network s false = Except.ok n := by
  cases hp : v6Pieces s with
  | error e => rw [mkIPv6Network_eq_of_pieces_err true hp] at h; simp at h
  | ok t =>
    obtain ⟨a, m, p⟩ := t
    rw [mkIPv6Network_eq_of_pieces true hp] at h
    rw [mkIPv6Network_eq_of_pieces false hp]
    by_cases hb : a.ip &&& m ≠ a.ip
    · rw [if_pos hb] at h; simp at h
    · rw [if_neg hb] at h
      rw [if_neg hb]
      exact h

/-- Evaluation of the `ipv4` body in CIDR mode: the strict `'/'`-count
check, then the network parse with `strict = not host_bit`. -/
theorem ipv4Body_cidr_eq {val : List Char} {s h : Bool} :
    ipv4Body val true s h =
      if s ∧ val.count '/' ≠ 1 then Except.error PyExc.valueError
      else
        match mkIPv4Network val (!h) with
        | .error e => .error e
        | .ok n => .ok (.net n) := rfl

/-- Evaluation of the `ipv6` body in CIDR mode. -/
theorem ipv6Body_cidr_eq {val : List Char} {s h : Bool} :
    ipv6Body val true s h =
      if s ∧ val.count '/' ≠ 1 then Except.error PyExc.valueError
      else
        match mkIPv6Network val (!h) with
        | .error e => .error e
        | .ok n => .ok (.net n) := rfl

/-- C10: acceptance is monotone in `host_bit`: for every value and every
`strict` setting, a success under `host_bit = false` is also a success
(with the same parsed object) under `host_bit = true`. -/
theorem host_bit_monotone :
    ∀ (value : String) (s : Bool),
      (∀ v, ipv4 value true s false = VRes.ok v → ipv4 value true s true = VRes.ok v) ∧
      (∀ w, ipv6 value true s false = VRes.ok w → ipv6 value true s true = VRes.ok w) := by
  intro value s
  constructor
  · intro v hv
    rw [ipv4_ok_iff] at hv ⊢
    refine ⟨hv.1, ?_⟩
    have hb := hv.2
    rw [ipv4Body_cidr_eq] at hb ⊢
    by_cases hst : s = true ∧ value.data.count '/' ≠ 1
    · rw [if_pos hst] at hb; simp at hb
    · rw [if_neg hst] at hb ⊢
      simp only [Bool.not_false] at hb
      simp only [Bool.not_true]
      cases hn : mkIPv4Network value.data true with
      | error e => rw [hn] at hb; simp at hb
      | ok n =>
        rw [hn] at hb
        rw [mkIPv4Network_strict_mono hn]
        exact hb
  · intro w hw
    rw [ipv6_ok_iff] at hw ⊢
    refine ⟨hw.1, ?_⟩
    have hb := hw.2
    rw [ipv6Body_cidr_eq] at hb ⊢
    by_cases hst : s = true ∧ value.data.count '/' ≠ 1
    · rw [if_pos hst] at hb; simp at hb
    · rw [if_neg hst] at hb ⊢
      simp only [Bool.not_false] at hb
      simp only [Bool.not_true]
      cases hn : mkIPv6Network value.data true with
      | error e => rw [hn] at hb; simp at hb
      | ok n =>
        rw [hn] at hb
        rw [mkIPv6Network_strict_mono hn]
        exact hb

/-- Witness for C10 at a concrete input: `"192.168.1.0/24"` is accepted
with `host_bit = false`, hence also with `host_bit = true`. -/
theorem host_bit_monotone_witness :
    ipv4 "192.168.1.0/24" true false true =
      VRes.ok (V4Obj.net ⟨3232235776, 4294967040, 24⟩) :=
  (host_bit_monotone "192.168.1.0/24" false).1
    (V4Obj.net ⟨3232235776, 4294967040, 24⟩) (by rfl)

/-- A body error is converted to the failure value by the `except` clause
(and the empty-value guard also yields failure). -/
theorem ipv4_fail_of_body_err {value : String} {c s h : Bool} {e : PyExc}
    (hb : ipv4Body value.data c s h = Except.error e) :
    ipv4 value c s h = VRes.fail := by
  unfold ipv4
  by_cases hv : value.data = []
  · simp [hv]
  · simp [hv, hb]

/-- `ipv6` analogue of `ipv4_fail_of_body_err`. -/
theorem ipv6_fail_of_body_err {value : String} {c s h : Bool} {e : PyExc}
    (hb : ipv6Body value.data c s h = Except.error e) :
    ipv6 value c s h = VRes.fail := by
  unfold ipv6
  by_cases hv : value.data = []
  · simp [hv]
  · simp [hv, hb]

/-- Evaluation of the `ipv4` body in CIDR mode with `strict = false`:
directly the network parse. -/
theorem ipv4Body_nonstrict_eq {val : List Char} {h : Bool} :
    ipv4Body val true false h =
      match mkIPv4Network val (!h) with
      | .error e => .error e
      | .ok n => .ok (.net n) := rfl

/-- Evaluation of the `ipv6` body in CIDR mode with `strict = false`. -/
theorem ipv6Body_nonstrict_eq {val : List Char} {h : Bool} :
    ipv6Body val true false h =
      match mkIPv6Network val (!h) with
      | .error e => .error e
      | .ok n => .ok (.net n) := rfl

/-- C3: with `cidr = true` and `host_bit = false` the value is parsed as
a network in strict (host-bits-rejecting) mode: once the syntactic pieces
(address integer, netmask, prefix length) parse, any set bit outside the
netmask makes the validator fail, while a clean network address succeeds;
with `host_bit = true` set host bits are tolerated (the address is
normalized to its network form).  Concretely `ipv4("192.168.1.1/24",
host_bit=false)` fails and `ipv4("192.168.1.0/24", host_bit=false)`
succeeds. -/
theorem host_bit_semantics :
    (∀ (value : String), value.data ≠ [] → ∀ a m p : Nat,
        v4Pieces value.data = Except.ok (a, m, p) →
          (a &&& m ≠ a →
             ipv4 value true false false = VRes.fail ∧
             ipv4 value true false true = VRes.ok (V4Obj.net ⟨a &&& m, m, p⟩)) ∧
          (a &&& m = a →
             ipv4 value true false false = VRes.ok (V4Obj.net ⟨a, m, p⟩) ∧
             ipv4 value true false true = VRes.ok (V4Obj.net ⟨a, m, p⟩))) ∧
    (∀ (value : String), value.data ≠ [] → ∀ (a : IPv6Address) (m p : Nat),
        v6Pieces value.data = Except.ok (a, m, p) →
          (a.ip &&& m ≠ a.ip →
             ipv6 value true false false = VRes.fail ∧
             ipv6 value true false true = VRes.ok (V6Obj.net ⟨⟨a.ip &&& m, none⟩, m, p⟩)) ∧
          (a.ip &&& m = a.ip →
             ipv6 value true false false = VRes.ok (V6Obj.net ⟨a, m, p⟩) ∧
             ipv6 value true false true = VRes.ok (V6Obj.net ⟨a, m, p⟩))) ∧
    ipv4 "192.168.1.1/24" true false false = VRes.fail ∧
    ipv4 "192.168.1.0/24" true false false =
      VRes.ok (V4Obj.net ⟨3232235776, 4294967040, 24⟩) := by
  refine ⟨?_, ?_, by rfl, by rfl⟩
  · intro value hne a m p hp
    constructor
    · intro hbit
      constructor
      · apply ipv4_fail_of_body_err (e := PyExc.valueError)
        rw [ipv4Body_nonstrict_eq]
        simp only [Bool.not_false]
        rw [mkIPv4Network_eq_of_pieces true hp, if_pos hbit]
        rfl
      · apply ipv4_ok_iff.mpr
        refine ⟨hne, ?_⟩
        rw [ipv4Body_nonstrict_eq]
        simp only [Bool.not_true]
        rw [mkIPv4Network_eq_of_pieces false hp, if_pos hbit]
        rfl
    · intro hbit
      have hbit' : ¬ a &&& m ≠ a := fun hcon => hcon hbit
      constructor
      · apply ipv4_ok_iff.mpr
        refine ⟨hne, ?_⟩
        rw [ipv4Body_nonstrict_eq]
        simp only [Bool.not_false]
        rw [mkIPv4Network_eq_of_pieces true hp, if_neg hbit']
      · apply ipv4_ok_iff.mpr
        refine ⟨hne, ?_⟩
        rw [ipv4Body_nonstrict_eq]
        simp only [Bool.not_true]
        rw [mkIPv4Network_eq_of_pieces false hp, if_neg hbit']
  · intro value hne a m p hp
    constructor
    · intro hbit
      constructor
      · apply ipv6_fail_of_body_err (e := PyExc.valueError)
        rw [ipv6Body_nonstrict_eq]
        simp only [Bool.not_false]
        rw [mkIPv6Network_eq_of_pieces true hp, if_pos hbit]
        rfl
      · apply ipv6_ok_iff.mpr
        refine ⟨hne, ?_⟩
        rw [ipv6Body_nonstrict_eq]
        simp only [Bool.not_true]
        rw [mkIPv6Network_eq_of_pieces false hp, if_pos hbit]
        rfl
    · intro hbit
      have hbit' : ¬ a.ip &&& m ≠ a.ip := fun hcon => hcon hbit
      constructor
      · apply ipv6_ok_iff.mpr
        refine ⟨hne, ?_⟩
        rw [ipv6Body_nonstrict_eq]
        simp only [Bool.not_false]
        rw [mkIPv6Network_eq_of_pieces true hp, if_neg hbit']
      · apply ipv6_ok_iff.mpr
        refine ⟨hne, ?_⟩
        rw [ipv6Body_nonstrict_eq]
        simp only [Bool.not_true]
        rw [mkIPv6Network_eq_of_pieces false hp, if_neg hbit']

/-- Witness for C3 at a concrete input: the pieces of
`"192.168.1.1/24"` parse with host bits set against the `/24` mask, so
`host_bit=false` rejects the value. -/
theorem host_bit_semantics_witness :
    ipv4 "192.168.1.1/24" true false true =
      VRes.ok (V4Obj.net ⟨3232235776, 4294967040, 24⟩) :=
  (((host_bit_semantics.1 "192.168.1.1/24" (by decide)
      3232235777 4294967040 24 (by rfl)).1 (by decide)).2)

/-- `str.split(sep)` always returns at least one part. -/
theorem splitOnC_ne_nil (sep : Char) (l : List Char) : splitOnC sep l ≠ [] := by
  cases l with
  | nil => simp [splitOnC]
  | cons c cs =>
    simp only [splitOnC]
    by_cases hc : c = sep
    · simp [hc]
    · rw [if_neg hc]
      cases splitOnC sep cs <;> simp

/-- The number of parts of `str.split(sep)` is the separator count plus
one. -/
theorem splitOnC_length (sep : Char) (l : List Char) :
    (splitOnC sep l).length = l.count sep + 1 := by
  induction l with
  | nil => simp [splitOnC]
  | cons c cs ih =>
    simp only [splitOnC]
    by_cases hc : c = sep
    · rw [if_pos hc]
      simp [List.count_cons, hc, ih]
    · rcases hr : splitOnC sep cs with _ | ⟨p, ps⟩
      · exact absurd hr (splitOnC_ne_nil sep cs)
      · rw [if_neg hc]
        rw [hr] at ih
        simp [List.count_cons, hc] at ih ⊢
        omega

/-- Every non-separator character of the string occurs in one of the
parts of `str.split(sep)`. -/
theorem mem_of_mem_splitOnC {sep c : Char} {l : List Char} (hc : c ≠ sep)
    (hm : c ∈ l) : ∃ p ∈ splitOnC sep l, c ∈ p := by
  induction l with
  | nil => simp at hm
  | cons a as ih =>
    simp only [splitOnC]
    by_cases ha : a = sep
    · rw [if_pos ha]
      have hmas : c ∈ as := by
        rcases List.mem_cons.mp hm with rfl | h2
        · exact absurd ha hc
        · exact h2
      obtain ⟨p, hp, hcp⟩ := ih hmas
      exact ⟨p, List.mem_cons_of_mem _ hp, hcp⟩
    · rw [if_neg ha]
      rcases hr : splitOnC sep as with _ | ⟨p, ps⟩
      · exact absurd hr (splitOnC_ne_nil sep as)
      · rcases List.mem_cons.mp hm with rfl | h2
        · exact ⟨c :: p, List.mem_cons_self _ _, List.mem_cons_self _ _⟩
        · obtain ⟨q, hq, hcq⟩ := ih h2
          rw [hr] at hq
          rcases List.mem_cons.mp hq with rfl | hq2
          · exact ⟨a :: q, List.mem_cons_self _ _, List.mem_cons_of_mem _ hcq⟩
          · exact ⟨q, List.mem_cons_of_mem _ hq2, hcq⟩

/-- If the effectful map succeeded, the function succeeded on every
element. -/
theorem exMapM_ok_forall {f : α → Except PyExc β} {l : List α} {ys : List β}
    (h : exMapM f l = Except.ok ys) : ∀ x ∈ l, ∃ y, f x = Except.ok y := by
  induction l generalizing ys with
  | nil => intro x hx; simp at hx
  | cons a as ih =>
    intro x hx
    unfold exMapM at h
    cases hf : f a with
    | error e => rw [hf] at h; simp at h
    | ok y =>
      rw [hf] at h
      cases hr : exMapM f as with
      | error e => rw [hr] at h; simp at h
      | ok ys2 =>
        rcases List.mem_cons.mp hx with rfl | h2
        · exact ⟨y, hf⟩
        · exact ih hr x h2

/-- A successfully parsed octet consists of decimal digits only. -/
theorem parseOctet_all_digits {s : List Char} {n : Nat}
    (h : parseOctet s = Except.ok n) : ∀ c ∈ s, c.isDigit := by
  intro c hc
  unfold parseOctet at h
  by_cases h1 : s = []
  · subst h1; simp at hc
  · rw [if_neg h1] at h
    by_cases h2 : s.all Char.isDigit = true
    · exact List.all_eq_true.mp h2 c hc
    · rw [if_pos h2] at h
      simp at h

/-- A string accepted by the IPv4 integer parser contains only dots and
decimal digits. -/
theorem ipv4Int_chars {s : List Char} {n : Nat}
    (h : ipv4IntFromString s = Except.ok n) :
    ∀ c ∈ s, c = '.' ∨ c.isDigit := by
  intro c hc
  by_cases hdot : c = '.'
  · exact Or.inl hdot
  · right
    simp only [ipv4IntFromString] at h
    by_cases h1 : s = []
    · rw [if_pos h1] at h; simp at h
    · rw [if_neg h1] at h
      by_cases h2 : (splitOnC '.' s).length ≠ 4
      · rw [if_pos h2] at h; simp at h
      · rw [if_neg h2] at h
        obtain ⟨p, hp, hcp⟩ := mem_of_mem_splitOnC hdot hc
        cases hm : exMapM parseOctet (splitOnC '.' s) with
        | error e => rw [hm] at h; simp at h
        | ok vals =>
          obtain ⟨y, hy⟩ := exMapM_ok_forall hm p hp
          exact parseOctet_all_digits hy c hcp

/-- A string accepted by the `IPv4Address` constructor contains only dots
and decimal digits. -/
theorem mkIPv4Address_chars {s : List Char} {a : IPv4Address}
    (h : mkIPv4Address s = Except.ok a) : ∀ c ∈ s, c = '.' ∨ c.isDigit := by
  unfold mkIPv4Address at h
  by_cases h1 : '/' ∈ s
  · rw [if_pos h1] at h; simp at h
  · rw [if_neg h1] at h
    cases hi : ipv4IntFromString s with
    | error e => rw [hi] at h; simp at h
    | ok n => exact ipv4Int_chars hi

/-- Every character of the part before the separator in
`str.partition(sep)` occurs in the string. -/
theorem partitionChar_fst_subset (sep : Char) (l : List Char) :
    ∀ c ∈ (partitionChar sep l).1, c ∈ l := by
  induction l with
  | nil => intro c hc; simp [partitionChar] at hc
  | cons a as ih =>
    intro c hc
    simp only [partitionChar] at hc
    by_cases ha : a = sep
    · rw [if_pos ha] at hc; simp at hc
    · rw [if_neg ha] at hc
      rcases List.mem_cons.mp hc with rfl | h2
      · exact List.mem_cons_self _ _
      · exact List.mem_cons_of_mem _ (ih c h2)

/-- The address part returned by `_split_scope_id` is the part of the
input before the first `'%'`. -/
theorem splitScopeId_ok_addr {s addr : List Char} {sc : Option (List Char)}
    (h : splitScopeId s = Except.ok (addr, sc)) :
    addr = (partitionChar '%' s).1 := by
  unfold splitScopeId at h
  cases hp : partitionChar '%' s with
  | mk a r =>
    rw [hp] at h
    cases r with
    | none =>
      simp at h
      exact h.1.symm
    | some scope =>
      by_cases hbad : scope = [] ∨ '%' ∈ scope
      · simp [hbad] at h
      · simp [hbad] at h
        exact h.1.symm

/-- A string accepted by the IPv6 integer parser contains a colon (it
splits into at least three `':'`-separated parts). -/
theorem ipv6Int_has_colon {s : List Char} {n : Nat}
    (h : ipv6IntFromString s = Except.ok n) : ':' ∈ s := by
  by_contra hno
  have hlen : (splitOnC ':' s).length = 1 := by
    rw [splitOnC_length, List.count_eq_zero.mpr hno]
  simp only [ipv6IntFromString] at h
  by_cases h1 : s = []
  · rw [if_pos h1] at h; simp at h
  · rw [if_neg h1] at h
    rw [if_pos (by rw [hlen]; norm_num : (splitOnC ':' s).length < 3)] at h
    simp at h

/-- Without a colon the IPv6 integer parser raises. -/
theorem ipv6Int_err_of_no_colon {s : List Char} (hno : ':' ∉ s) :
    ∃ e, ipv6IntFromString s = Except.error e := by
  simp only [ipv6IntFromString]
  by_cases h1 : s = []
  · rw [if_pos h1]; exact ⟨_, rfl⟩
  · rw [if_neg h1]
    have hlen : (splitOnC ':' s).length = 1 := by
      rw [splitOnC_length, List.count_eq_zero.mpr hno]
    rw [if_pos (by rw [hlen]; norm_num : (splitOnC ':' s).length < 3)]
    exact ⟨_, rfl⟩

/-- A string accepted by the `IPv6Address` constructor contains a colon
(the scope id, if any, is split off the end and the rest must parse). -/
theorem mkIPv6Address_has_colon {s : List Char} {a : IPv6Address}
    (h : mkIPv6Address s = Except.ok a) : ':' ∈ s := by
  unfold mkIPv6Address at h
  by_cases h1 : '/' ∈ s
  · rw [if_pos h1] at h; simp at h
  · rw [if_neg h1] at h
    cases hsc : splitScopeId s with
    | error e => rw [hsc] at h; simp at h
    | ok pr =>
      obtain ⟨addr, sc⟩ := pr
      rw [hsc] at h
      cases hi : ipv6IntFromString addr with
      | error e => simp [hi] at h
      | ok m =>
        have hca : ':' ∈ addr := ipv6Int_has_colon hi
        rw [splitScopeId_ok_addr hsc] at hca
        exact partitionChar_fst_subset '%' s ':' hca

/-- Without a colon the `IPv6Address` constructor raises. -/
theorem mkIPv6Address_err_of_no_colon {s : List Char} (hno : ':' ∉ s) :
    ∃ e, mkIPv6Address s = Except.error e := by
  unfold mkIPv6Address
  by_cases h1 : '/' ∈ s
  · rw [if_pos h1]; exact ⟨_, rfl⟩
  · rw [if_neg h1]
    cases hsc : splitScopeId s with
    | error e => exact ⟨e, rfl⟩
    | ok pr =>
      obtain ⟨addr, sc⟩ := pr
      have hnoaddr : ':' ∉ addr := fun hc =>
        hno (partitionChar_fst_subset '%' s ':' (splitScopeId_ok_addr hsc ▸ hc))
      obtain ⟨e, he⟩ := ipv6Int_err_of_no_colon hnoaddr
      exact ⟨e, by simp [he]⟩

/-- Evaluation of the `ipv4` body in bare-address mode. -/
theorem ipv4Body_nocidr_eq {val : List Char} {s h : Bool} :
    ipv4Body val false s h =
      match mkIPv4Address val with
      | .error e => .error e
      | .ok a => .ok (.addr a) := rfl

/-- Evaluation of the `ipv6` body in bare-address mode. -/
theorem ipv6Body_nocidr_eq {val : List Char} {s h : Bool} :
    ipv6Body val false s h =
      match mkIPv6Address val with
      | .error e => .error e
      | .ok a => .ok (.addr a) := rfl

/-- Dots and decimal digits are neither colons nor slashes. -/
theorem v4_chars_no_colon {s : List Char}
    (hch : ∀ c ∈ s, c = '.' ∨ c.isDigit) : ':' ∉ s := by
  intro hc
  rcases hch ':' hc with h | h
  · exact absurd h (by decide)
  · exact absurd h (by decide)

/-- C6: the two validators are family-exclusive in bare-address mode: no
string accepted by `ipv4` with `cidr=false` is accepted by `ipv6` with
`cidr=false`, and vice versa; the sole asymmetry is that `ipv6` accepts
IPv4-mapped IPv6 notation such as `"::ffff:192.0.2.128"` (IPv6-only
syntax, since it contains colons) while `ipv4` rejects it, and
`ipv6("abc.0.0.1")` fails. -/
theorem family_exclusive :
    (∀ (value : String) (s1 h1 s2 h2 : Bool) (v : V4Obj),
        ipv4 value false s1 h1 = VRes.ok v → ipv6 value false s2 h2 = VRes.fail) ∧
    (∀ (value : String) (s1 h1 s2 h2 : Bool) (w : V6Obj),
        ipv6 value false s1 h1 = VRes.ok w → ipv4 value false s2 h2 = VRes.fail) ∧
    ipv6 "::ffff:192.0.2.128" true false true =
      VRes.ok (V6Obj.net ⟨⟨281473902969472, none⟩,
        340282366920938463463374607431768211455, 128⟩) ∧
    ipv6 "::ffff:192.0.2.128" false false true =
      VRes.ok (V6Obj.addr ⟨281473902969472, none⟩) ∧
    ipv4 "::ffff:192.0.2.128" true false true = VRes.fail ∧
    ipv4 "::ffff:192.0.2.128" false false true = VRes.fail ∧
    ipv6 "abc.0.0.1" true false true = VRes.fail := by
  refine ⟨?_, ?_, by rfl, by rfl, by rfl, by rfl, by rfl⟩
  · intro value s1 h1 s2 h2 v hv
    rw [ipv4_ok_iff] at hv
    obtain ⟨hne, hb⟩ := hv
    rw [ipv4Body_nocidr_eq] at hb
    cases ha : mkIPv4Address value.data with
    | error e => rw [ha] at hb; simp at hb
    | ok a =>
      have hnc : ':' ∉ value.data := v4_chars_no_colon (mkIPv4Address_chars ha)
      obtain ⟨e, he⟩ := mkIPv6Address_err_of_no_colon hnc
      apply ipv6_fail_of_body_err (e := e)
      rw [ipv6Body_nocidr_eq]
      simp [he]
  · intro value s1 h1 s2 h2 w hw
    rw [ipv6_ok_iff] at hw
    obtain ⟨hne, hb⟩ := hw
    rw [ipv6Body_nocidr_eq] at hb
    cases ha : mkIPv6Address value.data with
    | error e => rw [ha] at hb; simp at hb
    | ok a =>
      have hcol : ':' ∈ value.data := mkIPv6Address_has_colon ha
      cases ha4 : mkIPv4Address value.data with
      | error e =>
        apply ipv4_fail_of_body_err (e := e)
        rw [ipv4Body_nocidr_eq]
        simp [ha4]
      | ok a4 =>
        exact absurd hcol (v4_chars_no_colon (mkIPv4Address_chars ha4))

/-- Witness for C6 at a concrete input: `"1.2.3.4"` is valid bare IPv4,
hence rejected by `ipv6` in bare-address mode. -/
theorem family_exclusive_witness :
    ipv6 "1.2.3.4" false false true = VRes.fail :=
  family_exclusive.1 "1.2.3.4" false true false true
    (V4Obj.addr ⟨16909060⟩) (by rfl)
